import Mathlib

/-!
Verification of the zkTLS social-proof repository.

The development shallowly embeds:
* the Express backend (`backend/server.js`): the in-memory session and proof
  stores (JS `Map`s), the `/generate-config`, `/receive-proofs/:provider`,
  `/verification-status` and `/prepare-onchain-mint` routes;
* the tested `SocialProofPass` Solidity contract (pragma 0.8.4 variant, the
  one exercised by `web3/test/SocialProofPass.js`): `mintSocialProofPass`,
  `mintWithProofVerification`, `addProvidersWithVerification`;
* the older `^0.8.20` contract variant's `addVerifiedProviders`.

The third-party Reclaim oracle is treated as an opaque boolean predicate on
proofs; `Date.now()` and `block.timestamp` are explicit parameters.
-/

namespace ZkTLS

/-! ## Association lists

JS `Map`s preserve insertion order and `Map.set` updates an existing key in
place, appending otherwise.  Solidity `mapping`s are unordered; we use the
same association lists for both (order is irrelevant to mapping lookups). -/

/-- Lookup in an association list (JS `Map.get` / Solidity `mapping` read). -/
def lookupA {κ : Type} {ν : Type} [DecidableEq κ] : List (κ × ν) → κ → Option ν
  | [], _ => none
  | (k', v') :: rest, k => if k' = k then some v' else lookupA rest k

/-- JS `Map.set` semantics: update the value in place when the key is
present (keeping iteration order), append a new entry otherwise. -/
def mapSet {κ : Type} {ν : Type} [DecidableEq κ] : List (κ × ν) → κ → ν → List (κ × ν)
  | [], k, v => [(k, v)]
  | (k', v') :: rest, k, v =>
    if k' = k then (k, v) :: rest else (k', v') :: mapSet rest k v

theorem lookupA_mapSet_self {κ ν : Type} [DecidableEq κ] (m : List (κ × ν)) (k : κ) (v : ν) :
    lookupA (mapSet m k v) k = some v := by
  induction m with
  | nil => simp [mapSet, lookupA]
  | cons hd tl ih =>
    obtain ⟨k', v'⟩ := hd
    by_cases h : k' = k
    · simp [mapSet, lookupA, h]
    · simp [mapSet, lookupA, h, ih]

theorem lookupA_mapSet_ne {κ ν : Type} [DecidableEq κ] (m : List (κ × ν)) (k k₀ : κ) (v : ν)
    (h : k₀ ≠ k) : lookupA (mapSet m k v) k₀ = lookupA m k₀ := by
  induction m with
  | nil => simp [mapSet, lookupA, Ne.symm h]
  | cons hd tl ih =>
    obtain ⟨k', v'⟩ := hd
    by_cases hk : k' = k
    · subst hk
      simp [mapSet, lookupA, Ne.symm h]
    · simp only [mapSet, if_neg hk, lookupA]
      by_cases hk0 : k' = k₀ <;> simp [hk0, ih]

theorem mem_mapSet {κ ν : Type} [DecidableEq κ] (m : List (κ × ν)) (k : κ) (v : ν)
    (q : κ × ν) (hq : q ∈ mapSet m k v) : q = (k, v) ∨ q ∈ m := by
  induction m with
  | nil => simp [mapSet] at hq; simp [hq]
  | cons hd tl ih =>
    obtain ⟨k', v'⟩ := hd
    by_cases h : k' = k
    · simp [mapSet, h] at hq
      rcases hq with hq | hq
      · left; simp [hq]
      · right; simp [hq]
    · simp [mapSet, h] at hq
      rcases hq with hq | hq
      · right; simp [hq]
      · rcases ih hq with h1 | h1
        · left; exact h1
        · right; simp [h1]

/-! ## Backend data model (`backend/server.js`) -/

/-- A proof payload received from the Reclaim oracle.  The backend decodes it
from the request body and otherwise treats it as opaque data. -/
abbrev RawProof := String

/-- A verification session, as created by `/generate-config` and mutated by
`/receive-proofs/:provider`.  `proofKey`, `proof` and `verifiedAt` are absent
until the session is promoted to `verified`. -/
structure Session where
  provider : String
  status : String
  address : Option String
  createdAt : Nat
  proofKey : Option String
  proof : Option RawProof
  verifiedAt : Option Nat
deriving DecidableEq, Repr

/-- An entry of the `verificationProofs` map, stored by
`/receive-proofs/:provider` after successful oracle verification. -/
structure StoredProof where
  provider : String
  proof : RawProof
  timestamp : Nat
  status : String
deriving DecidableEq, Repr

/-- The backend's in-memory state: the `verificationSessions` and
`verificationProofs` JS `Map`s, in insertion order. -/
structure BackendState where
  sessions : List (String × Session)
  proofs : List (String × StoredProof)
deriving DecidableEq, Repr

def emptyBackendState : BackendState := ⟨[], []⟩

/-- The keys of the `PROVIDERS` configuration object. -/
def supportedProviderNames : List String := ["github", "gmail", "linkedin", "twitter"]

/-- Own property names of `Object.prototype` in a standard JS runtime.  An
object literal inherits them, and each lookup yields a truthy value (a
builtin function, or the prototype object itself for `__proto__`). -/
def objectProtoProps : List String :=
  ["constructor", "hasOwnProperty", "isPrototypeOf", "propertyIsEnumerable",
   "toLocaleString", "toString", "valueOf", "__proto__",
   "__defineGetter__", "__defineSetter__", "__lookupGetter__", "__lookupSetter__"]

/-- Truthiness of the JS lookup `PROVIDERS[provider]`, as tested by the
route guards `!PROVIDERS[provider]`: either one of the four own keys of the
object literal, or a property inherited from `Object.prototype` (whose
value is always truthy). -/
def providerSupported (p : String) : Bool :=
  decide (p ∈ supportedProviderNames ∨ p ∈ objectProtoProps)

/-! ## `/generate-config` (spec: `requestConfiguration`) -/

/-- Does `pat` occur at the head of `s`? (character-list version of JS
`String.prototype.startsWith`, used to define substring containment). -/
def charsStartWith : List Char → List Char → Bool
  | [], _ => true
  | _ :: _, [] => false
  | a :: as, b :: bs => a == b && charsStartWith as bs

/-- JS `String.prototype.includes`: `pat` occurs somewhere in `s`. -/
def strContains (s pat : String) : Bool :=
  (List.range (s.data.length + 1)).any fun i => charsStartWith pat.data (s.data.drop i)

/-- The three per-provider environment credentials (`APP_ID`, `APP_SECRET`,
`PROVIDER_ID`); each may be absent from the environment. -/
structure ProviderCreds where
  appId : Option String
  appSecret : Option String
  providerId : Option String
deriving DecidableEq, Repr

/-- The `PROVIDERS` configuration object: credentials for the four keys. -/
structure ProvidersEnv where
  github : ProviderCreds
  gmail : ProviderCreds
  linkedin : ProviderCreds
  twitter : ProviderCreds
deriving DecidableEq, Repr

/-- `const { APP_ID, APP_SECRET, PROVIDER_ID } = PROVIDERS[provider]`:
the three credentials for an own key; destructuring a value inherited from
`Object.prototype` (a function or the prototype object) yields `undefined`
for all three fields. -/
def getCreds (e : ProvidersEnv) (p : String) : ProviderCreds :=
  if p = "github" then e.github
  else if p = "gmail" then e.gmail
  else if p = "linkedin" then e.linkedin
  else if p = "twitter" then e.twitter
  else { appId := none, appSecret := none, providerId := none }

/-- JS falsiness of a possibly-undefined string (`!APP_ID`): absent or empty. -/
def jsFalsyStr : Option String → Bool
  | none => true
  | some s => s = ""

/-- The `/generate-config` credential guard: any of the three values absent,
empty, or containing the placeholder marker `your_`. -/
def credsBad (c : ProviderCreds) : Bool :=
  jsFalsyStr c.appId || jsFalsyStr c.appSecret || jsFalsyStr c.providerId ||
    strContains (c.appId.getD "") "your_" ||
    strContains (c.appSecret.getD "") "your_" ||
    strContains (c.providerId.getD "") "your_"

/-- Outcome of `/generate-config`: HTTP 400 `Invalid provider`, HTTP 500
`Provider not configured`, or HTTP 200 carrying the new session id (the
oracle-issued request URL and config are external and not modelled). -/
inductive ConfigResult where
  | invalidProvider
  | notConfigured
  | ok (sessionId : String)
deriving DecidableEq, Repr

/-- `GET /generate-config?provider=..&address=..`, with `Date.now()` passed
explicitly as `now`.  On success it creates the pending session
`provider ++ "-" ++ now` in the `verificationSessions` map. -/
def requestConfiguration (env : ProvidersEnv) (st : BackendState) (provider : String)
    (address : Option String) (now : Nat) : ConfigResult × BackendState :=
  if provider = "" ∨ ¬ providerSupported provider then (.invalidProvider, st)
  else if credsBad (getCreds env provider) then (.notConfigured, st)
  else
    let sessionId := provider ++ "-" ++ toString now
    let newSession : Session :=
      { provider := provider, status := "pending", address := address,
        createdAt := now, proofKey := none, proof := none, verifiedAt := none }
    (.ok sessionId, { st with sessions := mapSet st.sessions sessionId newSession })

/-! ## `/receive-proofs/:provider` (spec: `receiveCallback`) -/

/-- The update applied to the matching session inside the
`/receive-proofs` loop: the object spread keeps `provider`, `address` and
`createdAt`, and sets `status`, `proofKey`, `proof` and `verifiedAt`. -/
def promoteSession (s : Session) (proofKey : String) (pf : RawProof) (now : Nat) : Session :=
  { s with status := "verified", proofKey := some proofKey,
           proof := some pf, verifiedAt := some now }

/-- The `for (const [sessionId, session] of verificationSessions.entries())`
loop with `break`: promote the first session in iteration order whose
provider matches and whose status is `pending`; leave everything else
untouched. -/
def promoteFirstPending (provider proofKey : String) (pf : RawProof) (now : Nat) :
    List (String × Session) → List (String × Session)
  | [] => []
  | (sid, s) :: rest =>
    if s.provider = provider ∧ s.status = "pending" then
      (sid, promoteSession s proofKey pf now) :: rest
    else
      (sid, s) :: promoteFirstPending provider proofKey pf now rest

/-- Index of the session the loop promotes: the first entry matching
`provider` with status `pending`. -/
def firstPendingIdx (provider : String) : List (String × Session) → Option Nat
  | [] => none
  | (_, s) :: rest =>
    if s.provider = provider ∧ s.status = "pending" then some 0
    else (firstPendingIdx provider rest).map (· + 1)

/-- Outcome of `/receive-proofs/:provider`: HTTP 400 `Invalid provider`,
HTTP 400 `Invalid proof`, or HTTP 200. -/
inductive CallbackResult where
  | badProvider
  | invalidProof
  | ok
deriving DecidableEq, Repr

/-- `POST /receive-proofs/:provider`.  `verifyOk` is the oracle's
`verifyProof`; `pf` is the decoded JSON body (the decode/parse failure path
returns HTTP 500 and changes no state, and is not modelled further since the
claims quantify over decoded proofs).  On a valid proof the handler stores a
`StoredProof` under `provider ++ "-" ++ now` and promotes the first pending
matching session. -/
def receiveCallback (verifyOk : RawProof → Bool) (st : BackendState)
    (provider : String) (pf : RawProof) (now : Nat) : CallbackResult × BackendState :=
  if ¬ providerSupported provider then (.badProvider, st)
  else if ¬ verifyOk pf then (.invalidProof, st)
  else
    let proofKey := provider ++ "-" ++ toString now
    let stored : StoredProof :=
      { provider := provider, proof := pf, timestamp := now, status := "verified" }
    (.ok, { sessions := promoteFirstPending provider proofKey pf now st.sessions,
            proofs := mapSet st.proofs proofKey stored })

/-! ## `/verification-status` (spec: `queryStatus`) -/

/-- The `/verification-status` scan: keep the first seen session for the
provider, replacing it only when a strictly larger `createdAt` appears. -/
def latestLoop (provider : String) (acc : Option (String × Session)) :
    List (String × Session) → Option (String × Session)
  | [] => acc
  | (sid, s) :: rest =>
    if s.provider = provider then
      match acc with
      | none => latestLoop provider (some (sid, s)) rest
      | some best =>
        if s.createdAt > best.2.createdAt then latestLoop provider (some (sid, s)) rest
        else latestLoop provider acc rest
    else latestLoop provider acc rest

/-- The JSON body answered by `/verification-status`. -/
structure StatusResponse where
  status : String
  sessionId : Option String
  proof : Option RawProof
  provider : Option String
deriving DecidableEq, Repr

def notFoundResponse : StatusResponse :=
  { status := "not_found", sessionId := none, proof := none, provider := none }

/-- `GET /verification-status?provider=..`. -/
def queryStatus (st : BackendState) (provider : String) : StatusResponse :=
  match latestLoop provider none st.sessions with
  | none => notFoundResponse
  | some (sid, s) =>
    { status := s.status, sessionId := some sid, proof := s.proof, provider := some s.provider }

/-! ## `/prepare-onchain-mint` (spec: `prepareOnChainPayload`) -/

/-- The `claimInfo` part of the contract's expected proof tuple. -/
structure ClaimInfo where
  provider : String
  parameters : String
  context : String
deriving DecidableEq, Repr

/-- The inner `claim` of a signed claim. -/
structure ClaimData where
  identifier : String
  owner : String
  timestampS : Nat
  epoch : Nat
deriving DecidableEq, Repr

structure SignedClaim where
  claim : ClaimData
  signatures : List String
deriving DecidableEq, Repr

/-- The transformed proof shape sent to the contract (`Reclaim.Proof`). -/
structure TransformedProof where
  claimInfo : ClaimInfo
  signedClaim : SignedClaim
deriving DecidableEq, Repr

/-- A raw Reclaim proof object as received in the `/prepare-onchain-mint`
request body; every field the transform reads may be absent. -/
structure RawOnchainProof where
  provider : Option String
  parameters : Option String
  context : Option String
  identifier : Option String
  owner : Option String
  timestampS : Option Nat
  epoch : Option Nat
  signatures : Option (List String)
deriving DecidableEq, Repr

/-- JS `x || d` for a possibly-undefined string (empty string is falsy). -/
def jsOrStr (x : Option String) (d : String) : String :=
  match x with
  | none => d
  | some s => if s = "" then d else s

/-- JS `x || d` for a possibly-undefined number (0 is falsy). -/
def jsOrNat (x : Option Nat) (d : Nat) : Nat :=
  match x with
  | none => d
  | some n => if n = 0 then d else n

/-- The 32-byte zero identifier default. -/
def zeroIdentifier : String :=
  "0x0000000000000000000000000000000000000000000000000000000000000000"

/-- The per-proof transform inside `/prepare-onchain-mint`: substitute
defaults for missing (or JS-falsy) fields, never reject. `nowSec` is
`Math.floor(Date.now() / 1000)`. -/
def transformProof (walletAddress : String) (nowSec : Nat) (p : RawOnchainProof) :
    TransformedProof :=
  { claimInfo :=
      { provider := jsOrStr p.provider ""
        parameters := jsOrStr p.parameters ""
        context := jsOrStr p.context "" }
    signedClaim :=
      { claim :=
          { identifier := jsOrStr p.identifier zeroIdentifier
            owner := jsOrStr p.owner walletAddress
            timestampS := jsOrNat p.timestampS nowSec
            epoch := jsOrNat p.epoch 1 }
        signatures := (p.signatures).getD [] } }

/-- `POST /prepare-onchain-mint`: maps every raw proof through the
transform (the contract address, ABI and chain id in the response are
configuration echoes and are not modelled). -/
def prepareOnChainMint (walletAddress : String) (nowSec : Nat)
    (reclaimProofs : List RawOnchainProof) : List TransformedProof :=
  reclaimProofs.map (transformProof walletAddress nowSec)

/-! ## The `SocialProofPass` contract

We embed the pragma-0.8.4 variant, which is the one the repository's
Hardhat test suite compiles against (it alone has `supportedProviders`,
`getReclaimAddress`, the plain `data:application/json,` token URI, and the
`Already minted` require that `web3/test/SocialProofPass.js` asserts).

Addresses are natural numbers (the zero address is `0`); `block.timestamp`
and `msg.sender` are explicit parameters; the Reclaim oracle contract is an
opaque predicate `oracle : TransformedProof → Bool`, a `false` answer
standing for the oracle's revert.  A reverting call is an `Except.error`
carrying the revert reason; per EVM semantics the caller's state is then
the unchanged pre-state (see `applyTx`). -/

/-- On-chain `SocialProof` struct (0.8.4 variant). `verificationCount` is a
`uint8`, i.e. a natural number reduced modulo 256 on assignment. -/
structure SocialProof where
  holder : Nat
  verifiedProviders : List String
  verificationCount : Nat
  timestamp : Nat
  verified : Bool
deriving DecidableEq, Repr

/-- Contract storage.  `owners` is the ERC721 token-to-owner mapping
(OpenZeppelin `_owners`); `hasMinted` is the set of addresses with the flag
set; `supportedProviders` the set of provider names mapped to `true`. -/
structure ContractState where
  tokenIdCounter : Nat
  owner : Nat
  reclaimAddress : Nat
  owners : List (Nat × Nat)
  socialProofs : List (Nat × SocialProof)
  holderTokens : List (Nat × List Nat)
  hasMinted : List Nat
  supportedProviders : List String
deriving DecidableEq, Repr

/-- State right after the constructor runs for deployer `d`. -/
def initialContractState (d : Nat) : ContractState :=
  { tokenIdCounter := 0, owner := d,
    reclaimAddress := 0xAe94FB09711e1c6B057853a515483792d8e474d0,
    owners := [], socialProofs := [], holderTokens := [], hasMinted := [],
    supportedProviders := ["github", "gmail", "linkedin", "twitter"] }

/-- `ownerOf`-style lookup; the zero address means the token is unminted. -/
def tokenOwner (s : ContractState) (tokenId : Nat) : Nat :=
  (lookupA s.owners tokenId).getD 0

/-- `_exists(tokenId)`. -/
def tokenExists (s : ContractState) (tokenId : Nat) : Bool :=
  tokenOwner s tokenId ≠ 0

/-- `holderTokens[toAddr].push(tokenId)`. -/
def pushHolderToken (s : ContractState) (toAddr tokenId : Nat) : List (Nat × List Nat) :=
  mapSet s.holderTokens toAddr ((lookupA s.holderTokens toAddr).getD [] ++ [tokenId])

/-- `hasAlreadyMinted(user)` view function. -/
def hasAlreadyMinted (s : ContractState) (user : Nat) : Bool :=
  decide (user ∈ s.hasMinted)

/-- Modelled from the spec: OpenZeppelin's `ERC721._safeMint` (an external
dependency, not part of this repository) reverts when the recipient "is the
zero address" or the token is "already minted", and otherwise records the
token's owner.  Receiver-hook behaviour for contract recipients is outside
the model. -/
def safeMint (s : ContractState) (toAddr tokenId : Nat) : Except String ContractState :=
  if toAddr = 0 then .error "ERC721: mint to the zero address"
  else if tokenExists s tokenId then .error "ERC721: token already minted"
  else .ok { s with owners := mapSet s.owners tokenId toAddr }

/-- `mintSocialProofPass(to, providers, proofData)` (0.8.4 variant):
owner-only; requires a nonempty provider list and that `toAddr` has not minted;
`proofData` is accepted but unused by this variant.  `uint8(providers.length)`
truncates modulo 256. -/
def mintSocialProofPass (s : ContractState) (sender toAddr : Nat) (providers : List String)
    (proofData : List Nat) (blockTimestamp : Nat) : Except String (ContractState × Nat) :=
  if sender ≠ s.owner then .error "Ownable: caller is not the owner"
  else if providers.length = 0 then .error "At least one provider required"
  else if toAddr ∈ s.hasMinted then .error "Already minted"
  else
    let tokenId := s.tokenIdCounter
    let _ := proofData
    match safeMint { s with tokenIdCounter := tokenId + 1 } toAddr tokenId with
    | .error e => .error e
    | .ok s₁ =>
      let s₂ :=
        { s₁ with
          socialProofs := mapSet s₁.socialProofs tokenId
            { holder := toAddr, verifiedProviders := providers,
              verificationCount := providers.length % 256,
              timestamp := blockTimestamp, verified := true },
          holderTokens := pushHolderToken s₁ toAddr tokenId,
          hasMinted := toAddr :: s₁.hasMinted }
      .ok (s₂, tokenId)

/-- The verification loop shared by `mintWithProofVerification` and
`addProvidersWithVerification`: for each proof/provider pair, require the
provider supported, then call the Reclaim oracle, whose failure reverts. -/
def verifyAll (oracle : TransformedProof → Bool) (supported : List String) :
    List TransformedProof → List String → Except String Unit
  | [], _ => .ok ()
  | _ :: _, [] => .ok ()
  | p :: ps, pr :: prs =>
    if pr ∉ supported then .error "Unsupported provider"
    else if oracle p = false then .error "Reclaim: proof verification failed"
    else verifyAll oracle supported ps prs

/-- `mintWithProofVerification(proofs, providers)`: open entry point;
requires a nonempty batch, matching lengths, caller not already minted, and
each proof to pass both the supported-provider check and the on-chain
oracle; then mints exactly like the owner-gated path. -/
def mintWithProofVerification (oracle : TransformedProof → Bool) (s : ContractState)
    (sender : Nat) (proofs : List TransformedProof) (providers : List String)
    (blockTimestamp : Nat) : Except String (ContractState × Nat) :=
  if proofs.length = 0 then .error "At least one proof required"
  else if proofs.length ≠ providers.length then .error "Proofs and providers length mismatch"
  else if sender ∈ s.hasMinted then .error "Already minted"
  else
    match verifyAll oracle s.supportedProviders proofs providers with
    | .error e => .error e
    | .ok _ =>
      let tokenId := s.tokenIdCounter
      match safeMint { s with tokenIdCounter := tokenId + 1 } sender tokenId with
      | .error e => .error e
      | .ok s₁ =>
        let s₂ :=
          { s₁ with
            socialProofs := mapSet s₁.socialProofs tokenId
              { holder := sender, verifiedProviders := providers,
                verificationCount := providers.length % 256,
                timestamp := blockTimestamp, verified := true },
            holderTokens := pushHolderToken s₁ sender tokenId,
            hasMinted := sender :: s₁.hasMinted }
        .ok (s₂, tokenId)

/-- Solidity mapping read `socialProofs[tokenId]` (default struct if absent). -/
def getProofData (s : ContractState) (tokenId : Nat) : SocialProof :=
  (lookupA s.socialProofs tokenId).getD
    { holder := 0, verifiedProviders := [], verificationCount := 0,
      timestamp := 0, verified := false }

/-- `addProvidersWithVerification(tokenId, newProofs, newProviders)`:
token-owner-only append path with on-chain verification; appends the new
providers, recomputes `verificationCount = uint8(length)` and refreshes the
timestamp. -/
def addProvidersWithVerification (oracle : TransformedProof → Bool) (s : ContractState)
    (sender tokenId : Nat) (newProofs : List TransformedProof) (newProviders : List String)
    (blockTimestamp : Nat) : Except String ContractState :=
  if ¬ tokenExists s tokenId then .error "Token does not exist"
  else if tokenOwner s tokenId ≠ sender then .error "Not token owner"
  else if newProofs.length ≠ newProviders.length then .error "Arrays length mismatch"
  else
    match verifyAll oracle s.supportedProviders newProofs newProviders with
    | .error e => .error e
    | .ok _ =>
      let pr := getProofData s tokenId
      let providers' := pr.verifiedProviders ++ newProviders
      .ok { s with
            socialProofs := mapSet s.socialProofs tokenId
              { pr with verifiedProviders := providers',
                        verificationCount := providers'.length % 256,
                        timestamp := blockTimestamp } }

/-- EVM transaction semantics: a revert leaves the pre-state untouched. -/
def applyTx (s : ContractState) (r : Except String (ContractState × Nat)) : ContractState :=
  match r with
  | .ok (s', _) => s'
  | .error _ => s

/-! ## The `^0.8.20` contract variant's `addVerifiedProviders`

The repository also contains an earlier `^0.8.20` contract whose
`SocialProof` struct carries the proof bytes, and whose owner-gated append
entry point is `addVerifiedProviders`.  Only the pieces that the claims
touch are embedded. -/

/-- On-chain `SocialProof` struct of the `^0.8.20` variant. -/
structure SocialProofA where
  holder : Nat
  verifiedProviders : List String
  proofData : List Nat
  timestamp : Nat
  verificationCount : Nat
deriving DecidableEq, Repr

/-- Storage of the `^0.8.20` variant (fields the claims need). -/
structure ContractStateA where
  tokenIdCounter : Nat
  owner : Nat
  owners : List (Nat × Nat)
  socialProofs : List (Nat × SocialProofA)
  holderTokens : List (Nat × List Nat)
  hasMinted : List Nat
deriving DecidableEq, Repr

def tokenExistsA (s : ContractStateA) (tokenId : Nat) : Bool :=
  (lookupA s.owners tokenId).getD 0 ≠ 0

def getProofDataA (s : ContractStateA) (tokenId : Nat) : SocialProofA :=
  (lookupA s.socialProofs tokenId).getD
    { holder := 0, verifiedProviders := [], proofData := [],
      timestamp := 0, verificationCount := 0 }

/-- `mintSocialProofPass` of the `^0.8.20` variant: owner-only, nonempty
providers, non-zero recipient (this variant has an explicit zero-address
require but no `hasMinted` require). -/
def mintSocialProofPassA (s : ContractStateA) (sender toAddr : Nat) (providers : List String)
    (proofData : List Nat) (blockTimestamp : Nat) : Except String (ContractStateA × Nat) :=
  if sender ≠ s.owner then .error "Ownable: caller is not the owner"
  else if providers.length = 0 then .error "At least one provider required"
  else if toAddr = 0 then .error "Invalid recipient address"
  else
    let tokenId := s.tokenIdCounter
    if tokenExistsA s tokenId then .error "ERC721: token already minted"
    else
      .ok ({ s with
             tokenIdCounter := tokenId + 1,
             owners := mapSet s.owners tokenId toAddr,
             socialProofs := mapSet s.socialProofs tokenId
               { holder := toAddr, verifiedProviders := providers, proofData := proofData,
                 timestamp := blockTimestamp, verificationCount := providers.length % 256 },
             holderTokens := mapSet s.holderTokens toAddr
               ((lookupA s.holderTokens toAddr).getD [] ++ [tokenId]),
             hasMinted := toAddr :: s.hasMinted }, tokenId)

/-- `addVerifiedProviders(tokenId, newProviders, newProofData)` of the
`^0.8.20` variant: owner-only append of providers and proof bytes, with
`verificationCount = uint8(length)` recomputed. -/
def addVerifiedProviders (s : ContractStateA) (sender tokenId : Nat)
    (newProviders : List String) (newProofData : List Nat) :
    Except String ContractStateA :=
  if sender ≠ s.owner then .error "Ownable: caller is not the owner"
  else if ¬ tokenExistsA s tokenId then .error "Token does not exist"
  else if newProviders.length = 0 then .error "No providers to add"
  else
    let pr := getProofDataA s tokenId
    let providers' := pr.verifiedProviders ++ newProviders
    .ok { s with
          socialProofs := mapSet s.socialProofs tokenId
            { pr with verifiedProviders := providers',
                      proofData := pr.proofData ++ newProofData,
                      verificationCount := providers'.length % 256 } }

/-! ## Concrete instances used by witnesses and counterexamples -/

/-- Properly configured credentials (no placeholder marker). -/
def demoCreds : ProviderCreds :=
  { appId := some "appid123", appSecret := some "secret456", providerId := some "provid789" }

/-- An environment configuring all four providers. -/
def demoEnv : ProvidersEnv :=
  { github := demoCreds, gmail := demoCreds, linkedin := demoCreds, twitter := demoCreds }

/-! ## C5: unknown provider on `/generate-config` -/

/-- C5 counterexample: `constructor` is not one of the four configured
providers, yet `/generate-config` does not answer 400 `Invalid provider`:
the lookup `PROVIDERS["constructor"]` hits the inherited
`Object.prototype.constructor` (truthy), the 400 guard is bypassed, the
destructured credentials are all `undefined`, and the route answers 500
`Provider not configured` instead. -/
theorem requestConfiguration_prototype_cex :
    "constructor" ∉ supportedProviderNames ∧
    (requestConfiguration demoEnv emptyBackendState "constructor" none 42).1 =
      ConfigResult.notConfigured ∧
    ConfigResult.notConfigured ≠ ConfigResult.invalidProvider := by
  decide

/-- C5 as amended: for every provider outside the configured set,
`/generate-config` fails and creates no session — with 400
`Invalid provider` when the name is not an inherited `Object.prototype`
property, and with 500 `Provider not configured` when it is one (the
truthy inherited value bypasses the 400 guard and the credentials
destructure to `undefined`); in both cases the returned state is exactly
the input state. -/
theorem requestConfiguration_unknown_noSession (env : ProvidersEnv) (st : BackendState)
    (provider : String) (address : Option String) (now : Nat)
    (h : provider ∉ supportedProviderNames) :
    (provider ∉ objectProtoProps →
      requestConfiguration env st provider address now = (.invalidProvider, st)) ∧
    (provider ∈ objectProtoProps →
      requestConfiguration env st provider address now = (.notConfigured, st)) ∧
    (requestConfiguration env st provider address now).2 = st := by
  have hne : ¬ (provider = "github" ∨ provider = "gmail" ∨ provider = "linkedin" ∨
      provider = "twitter") := by
    simpa [supportedProviderNames] using h
  push_neg at hne
  obtain ⟨h1, h2, h3, h4⟩ := hne
  have hcase1 : provider ∉ objectProtoProps →
      requestConfiguration env st provider address now = (.invalidProvider, st) := by
    intro hproto
    have hguard : ¬ providerSupported provider = true := by
      simp [providerSupported, h, hproto]
    simp [requestConfiguration, hguard]
  have hcase2 : provider ∈ objectProtoProps →
      requestConfiguration env st provider address now = (.notConfigured, st) := by
    intro hproto
    have hempty : provider ≠ "" := by
      intro he
      rw [he] at hproto
      exact absurd hproto (by decide)
    have hguard : providerSupported provider = true := by
      simp [providerSupported, hproto]
    have hcreds : credsBad (getCreds env provider) = true := by
      simp [getCreds, h1, h2, h3, h4, credsBad, jsFalsyStr]
    simp [requestConfiguration, hempty, hguard, hcreds]
  refine ⟨hcase1, hcase2, ?_⟩
  by_cases hproto : provider ∈ objectProtoProps
  · rw [hcase2 hproto]
  · rw [hcase1 hproto]

/-- Witness for the amended C5: `facebook` (no inherited property) gets 400
`Invalid provider`; `constructor` (inherited property) gets 500
`Provider not configured`; neither creates a session. -/
theorem requestConfiguration_unknown_noSession_witness :
    requestConfiguration demoEnv emptyBackendState "facebook" none 42 =
      (.invalidProvider, emptyBackendState) ∧
    requestConfiguration demoEnv emptyBackendState "constructor" none 42 =
      (.notConfigured, emptyBackendState) := by
  have hf := requestConfiguration_unknown_noSession demoEnv emptyBackendState "facebook"
    none 42 (by decide)
  have hc := requestConfiguration_unknown_noSession demoEnv emptyBackendState "constructor"
    none 42 (by decide)
  exact ⟨hf.1 (by decide), hc.2.1 (by decide)⟩

/-! ## C7: session identifiers collide within one millisecond -/

/-- C7: two `/generate-config` calls for the same provider in the same
millisecond (`Date.now()` value 1000) both return the session identifier
`github-1000` — the identifier is provider + timestamp and is not unique. -/
theorem sessionId_collision :
    (requestConfiguration demoEnv emptyBackendState "github" none 1000).1 = .ok "github-1000" ∧
    (requestConfiguration demoEnv
        (requestConfiguration demoEnv emptyBackendState "github" none 1000).2
        "github" none 1000).1 = .ok "github-1000" := by
  constructor <;> rfl

/-! ## C8: `/prepare-onchain-mint` substitutes defaults and rejects nothing -/

/-- C8: the `/prepare-onchain-mint` transform substitutes the documented
default for each missing field — zero identifier, the caller's wallet
address as owner, the current time in seconds, epoch 1, and empty
provider/parameters/context/signatures — and no raw proof is rejected:
every input list maps to an output list of the same length. -/
theorem transformProof_defaults (w : String) (nowSec : Nat) (p : RawOnchainProof) :
    (p.identifier = none →
      (transformProof w nowSec p).signedClaim.claim.identifier = zeroIdentifier) ∧
    (p.owner = none → (transformProof w nowSec p).signedClaim.claim.owner = w) ∧
    (p.timestampS = none → (transformProof w nowSec p).signedClaim.claim.timestampS = nowSec) ∧
    (p.epoch = none → (transformProof w nowSec p).signedClaim.claim.epoch = 1) ∧
    (p.provider = none → (transformProof w nowSec p).claimInfo.provider = "") ∧
    (p.parameters = none → (transformProof w nowSec p).claimInfo.parameters = "") ∧
    (p.context = none → (transformProof w nowSec p).claimInfo.context = "") ∧
    (p.signatures = none → (transformProof w nowSec p).signedClaim.signatures = []) ∧
    (∀ proofs : List RawOnchainProof,
      (prepareOnChainMint w nowSec proofs).length = proofs.length) := by
  refine ⟨?_, ?_, ?_, ?_, ?_, ?_, ?_, ?_, ?_⟩
  all_goals first
    | (intro h; simp [transformProof, jsOrStr, jsOrNat, h])
    | (intro proofs; simp [prepareOnChainMint])

/-- A raw proof with every field absent. -/
def emptyRawOnchainProof : RawOnchainProof :=
  { provider := none, parameters := none, context := none, identifier := none,
    owner := none, timestampS := none, epoch := none, signatures := none }

/-- Witness for C8 at the all-fields-missing proof. -/
theorem transformProof_defaults_witness :
    (transformProof "0xabc" 77 emptyRawOnchainProof).signedClaim.claim.identifier =
        zeroIdentifier ∧
    (transformProof "0xabc" 77 emptyRawOnchainProof).signedClaim.claim.owner = "0xabc" ∧
    (transformProof "0xabc" 77 emptyRawOnchainProof).signedClaim.claim.timestampS = 77 ∧
    (transformProof "0xabc" 77 emptyRawOnchainProof).signedClaim.claim.epoch = 1 ∧
    (transformProof "0xabc" 77 emptyRawOnchainProof).claimInfo.provider = "" ∧
    (transformProof "0xabc" 77 emptyRawOnchainProof).claimInfo.parameters = "" ∧
    (transformProof "0xabc" 77 emptyRawOnchainProof).claimInfo.context = "" ∧
    (transformProof "0xabc" 77 emptyRawOnchainProof).signedClaim.signatures = [] ∧
    (prepareOnChainMint "0xabc" 77 [emptyRawOnchainProof]).length = 1 := by
  have h := transformProof_defaults "0xabc" 77 emptyRawOnchainProof
  exact ⟨h.1 rfl, h.2.1 rfl, h.2.2.1 rfl, h.2.2.2.1 rfl, h.2.2.2.2.1 rfl,
    h.2.2.2.2.2.1 rfl, h.2.2.2.2.2.2.1 rfl, h.2.2.2.2.2.2.2.1 rfl,
    h.2.2.2.2.2.2.2.2 [emptyRawOnchainProof]⟩

/-! ## C2: `verificationCount` versus provider-list length -/

/-- The invariant that actually holds of the 0.8.4 contract: every stored
`SocialProof` carries `uint8(verifiedProviders.length)`, i.e. the length
reduced modulo 256. -/
def countInv (s : ContractState) : Prop :=
  ∀ q ∈ s.socialProofs, q.2.verificationCount = q.2.verifiedProviders.length % 256

/-- Same invariant for the `^0.8.20` variant's storage. -/
def countInvA (s : ContractStateA) : Prop :=
  ∀ q ∈ s.socialProofs, q.2.verificationCount = q.2.verifiedProviders.length % 256

set_option maxRecDepth 4000 in
/-- C2 counterexample: the owner mints with 256 providers; the stored
`SocialProof` has `verifiedProviders` of length 256 but
`verificationCount = uint8(256) = 0`, so `verificationCount` does not equal
the provider-list length. -/
theorem verificationCount_overflow_cex :
    (mintSocialProofPass (initialContractState 7) 7 1 (List.replicate 256 "github") [] 5).map
        (fun r => (lookupA r.1.socialProofs 0).map
          (fun pr => (pr.verificationCount, pr.verifiedProviders.length)))
      = .ok (some (0, 256)) := by
  rfl

/-- C2 as amended: every stored `SocialProof` satisfies
`verificationCount = len(verifiedProviders) % 256` (so the two agree exactly
whenever the list is shorter than 256), and this invariant is preserved by
`mintSocialProofPass`, `mintWithProofVerification` and
`addProvidersWithVerification` of the tested contract, and by
`mintSocialProofPassA`/`addVerifiedProviders` of the `^0.8.20` variant. -/
theorem verificationCount_mod_inv :
    (∀ (s : ContractState) (sender toAddr : Nat) (providers : List String)
        (pd : List Nat) (ts : Nat) (s' : ContractState) (tid : Nat),
      countInv s → mintSocialProofPass s sender toAddr providers pd ts = .ok (s', tid) →
        countInv s') ∧
    (∀ (oracle : TransformedProof → Bool) (s : ContractState) (sender : Nat)
        (proofs : List TransformedProof) (providers : List String) (ts : Nat)
        (s' : ContractState) (tid : Nat),
      countInv s → mintWithProofVerification oracle s sender proofs providers ts = .ok (s', tid) →
        countInv s') ∧
    (∀ (oracle : TransformedProof → Bool) (s : ContractState) (sender tokenId : Nat)
        (newProofs : List TransformedProof) (newProviders : List String) (ts : Nat)
        (s' : ContractState),
      countInv s →
        addProvidersWithVerification oracle s sender tokenId newProofs newProviders ts = .ok s' →
        countInv s') ∧
    (∀ (s : ContractStateA) (sender toAddr : Nat) (providers : List String)
        (pd : List Nat) (ts : Nat) (s' : ContractStateA) (tid : Nat),
      countInvA s → mintSocialProofPassA s sender toAddr providers pd ts = .ok (s', tid) →
        countInvA s') ∧
    (∀ (s : ContractStateA) (sender tokenId : Nat) (newProviders : List String)
        (newPd : List Nat) (s' : ContractStateA),
      countInvA s → addVerifiedProviders s sender tokenId newProviders newPd = .ok s' →
        countInvA s') := by
  refine ⟨?_, ?_, ?_, ?_, ?_⟩
  · intro s sender toAddr providers pd ts s' tid hinv hok
    simp only [mintSocialProofPass, safeMint] at hok
    split at hok
    · exact absurd hok (by simp)
    split at hok
    · exact absurd hok (by simp)
    split at hok
    · exact absurd hok (by simp)
    split at hok
    · exact absurd hok (by simp)
    rename_i s₁ heq
    split at heq
    · exact absurd heq (by simp)
    split at heq
    · exact absurd heq (by simp)
    simp only [Except.ok.injEq] at heq
    subst heq
    simp only [Except.ok.injEq, Prod.mk.injEq] at hok
    obtain ⟨hs, -⟩ := hok
    subst hs
    intro q hq
    rcases mem_mapSet _ _ _ _ hq with h1 | h1
    · subst h1; rfl
    · exact hinv q h1
  · intro oracle s sender proofs providers ts s' tid hinv hok
    simp only [mintWithProofVerification, safeMint] at hok
    split at hok
    · exact absurd hok (by simp)
    split at hok
    · exact absurd hok (by simp)
    split at hok
    · exact absurd hok (by simp)
    split at hok
    · exact absurd hok (by simp)
    split at hok
    · exact absurd hok (by simp)
    rename_i s₁ heq
    split at heq
    · exact absurd heq (by simp)
    split at heq
    · exact absurd heq (by simp)
    simp only [Except.ok.injEq] at heq
    subst heq
    simp only [Except.ok.injEq, Prod.mk.injEq] at hok
    obtain ⟨hs, -⟩ := hok
    subst hs
    intro q hq
    rcases mem_mapSet _ _ _ _ hq with h1 | h1
    · subst h1; rfl
    · exact hinv q h1
  · intro oracle s sender tokenId newProofs newProviders ts s' hinv hok
    simp only [addProvidersWithVerification] at hok
    split at hok
    · exact absurd hok (by simp)
    split at hok
    · exact absurd hok (by simp)
    split at hok
    · exact absurd hok (by simp)
    split at hok
    · exact absurd hok (by simp)
    simp only [Except.ok.injEq] at hok
    subst hok
    intro q hq
    rcases mem_mapSet _ _ _ _ hq with h1 | h1
    · subst h1; rfl
    · exact hinv q h1
  · intro s sender toAddr providers pd ts s' tid hinv hok
    simp only [mintSocialProofPassA] at hok
    split at hok
    · exact absurd hok (by simp)
    split at hok
    · exact absurd hok (by simp)
    split at hok
    · exact absurd hok (by simp)
    split at hok
    · exact absurd hok (by simp)
    simp only [Except.ok.injEq, Prod.mk.injEq] at hok
    obtain ⟨hs, -⟩ := hok
    subst hs
    intro q hq
    rcases mem_mapSet _ _ _ _ hq with h1 | h1
    · subst h1; rfl
    · exact hinv q h1
  · intro s sender tokenId newProviders newPd s' hinv hok
    simp only [addVerifiedProviders] at hok
    split at hok
    · exact absurd hok (by simp)
    split at hok
    · exact absurd hok (by simp)
    split at hok
    · exact absurd hok (by simp)
    simp only [Except.ok.injEq] at hok
    subst hok
    intro q hq
    rcases mem_mapSet _ _ _ _ hq with h1 | h1
    · subst h1; rfl
    · exact hinv q h1

/-- A concrete proof object for witnesses (its content is opaque to the
contract logic). -/
def dummyProof : TransformedProof := transformProof "0xabc" 77 emptyRawOnchainProof

/-- State after the owner (address 7) mints token 0 for address 1. -/
def mintedDemo : ContractState :=
  applyTx (initialContractState 7)
    (mintSocialProofPass (initialContractState 7) 7 1 ["github"] [] 3)

/-- State after a self-service mint by address 2 with an all-accepting oracle. -/
def mintedDemo2 : ContractState :=
  applyTx (initialContractState 7)
    (mintWithProofVerification (fun _ => true) (initialContractState 7) 2 [dummyProof]
      ["github"] 4)

/-- State after the holder of token 0 appends one more provider. -/
def addedDemo : ContractState :=
  (addProvidersWithVerification (fun _ => true) mintedDemo 1 0 [dummyProof] ["gmail"] 9).toOption.getD
    mintedDemo

/-- Fresh storage of the `^0.8.20` variant with owner 7. -/
def initialContractStateA : ContractStateA :=
  { tokenIdCounter := 0, owner := 7, owners := [], socialProofs := [],
    holderTokens := [], hasMinted := [] }

def mintedDemoA : ContractStateA :=
  match mintSocialProofPassA initialContractStateA 7 1 ["github"] [] 3 with
  | .ok (s', _) => s'
  | .error _ => initialContractStateA

def addedDemoA : ContractStateA :=
  (addVerifiedProviders mintedDemoA 7 0 ["gmail"] []).toOption.getD mintedDemoA

/-- Witness for the amended C2: the modulo-256 invariant holds in the states
reached by each of the five operations on concrete inputs. -/
theorem verificationCount_mod_inv_witness :
    countInv mintedDemo ∧ countInv mintedDemo2 ∧ countInv addedDemo ∧
    countInvA mintedDemoA ∧ countInvA addedDemoA := by
  have h0 : countInv (initialContractState 7) := by
    intro q hq; simp [initialContractState] at hq
  have h0A : countInvA initialContractStateA := by
    intro q hq; simp [initialContractStateA] at hq
  have h1 : countInv mintedDemo :=
    verificationCount_mod_inv.1 (initialContractState 7) 7 1 ["github"] [] 3 mintedDemo 0
      h0 rfl
  have h2 : countInv mintedDemo2 :=
    verificationCount_mod_inv.2.1 (fun _ => true) (initialContractState 7) 2 [dummyProof]
      ["github"] 4 mintedDemo2 0 h0 rfl
  have h3 : countInv addedDemo :=
    verificationCount_mod_inv.2.2.1 (fun _ => true) mintedDemo 1 0 [dummyProof] ["gmail"] 9
      addedDemo h1 rfl
  have h4 : countInvA mintedDemoA :=
    verificationCount_mod_inv.2.2.2.1 initialContractStateA 7 1 ["github"] [] 3 mintedDemoA 0
      h0A rfl
  have h5 : countInvA addedDemoA :=
    verificationCount_mod_inv.2.2.2.2 mintedDemoA 7 0 ["gmail"] [] addedDemoA h4 rfl
  exact ⟨h1, h2, h3, h4, h5⟩

/-! ## C3: `mintWithProofVerification` is all-or-nothing -/

theorem verifyAll_err (oracle : TransformedProof → Bool) (sup : List String) :
    ∀ (ps : List TransformedProof) (prs : List String), ps.length = prs.length →
      ((∃ pr ∈ prs, pr ∉ sup) ∨ (∃ p ∈ ps, oracle p = false)) →
      ∃ e, verifyAll oracle sup ps prs = .error e := by
  intro ps
  induction ps with
  | nil =>
    intro prs hlen hbad
    have : prs = [] := by
      cases prs with
      | nil => rfl
      | cons a l => simp at hlen
    subst this
    rcases hbad with ⟨pr, hmem, -⟩ | ⟨p, hmem, -⟩ <;> simp at hmem
  | cons p ps ih =>
    intro prs hlen hbad
    cases prs with
    | nil => simp at hlen
    | cons pr0 prs' =>
      by_cases hc : pr0 ∈ sup
      · by_cases ho : oracle p = false
        · exact ⟨"Reclaim: proof verification failed", by simp [verifyAll, hc, ho]⟩
        · have ho' : oracle p = true := by
            cases hov : oracle p
            · exact absurd hov ho
            · rfl
          have hlen' : ps.length = prs'.length := by simpa using hlen
          have hbad' : (∃ pr ∈ prs', pr ∉ sup) ∨ (∃ q ∈ ps, oracle q = false) := by
            rcases hbad with ⟨pr, hmem, hf⟩ | ⟨q, hmem, hf⟩
            · rcases List.mem_cons.mp hmem with h | h
              · exact absurd hc (h ▸ hf)
              · exact Or.inl ⟨pr, h, hf⟩
            · rcases List.mem_cons.mp hmem with h | h
              · rw [h, ho'] at hf; simp at hf
              · exact Or.inr ⟨q, h, hf⟩
          obtain ⟨e, he⟩ := ih prs' hlen' hbad'
          exact ⟨e, by simp [verifyAll, hc, ho, he]⟩
      · exact ⟨"Unsupported provider", by simp [verifyAll, hc]⟩

/-- C3: if the proof and provider arrays have different lengths, or the
caller has already minted, or any provider in the list is unsupported, or
any single proof in the batch fails oracle verification, then
`mintWithProofVerification` reverts, and the post-transaction state is the
unchanged pre-state: no token is minted and no storage is touched. -/
theorem mintWithProofVerification_atomic (oracle : TransformedProof → Bool)
    (s : ContractState) (sender : Nat) (proofs : List TransformedProof)
    (providers : List String) (ts : Nat)
    (h : proofs.length ≠ providers.length ∨ sender ∈ s.hasMinted ∨
         (∃ pr ∈ providers, pr ∉ s.supportedProviders) ∨
         (∃ p ∈ proofs, oracle p = false)) :
    (∃ e, mintWithProofVerification oracle s sender proofs providers ts = .error e) ∧
    applyTx s (mintWithProofVerification oracle s sender proofs providers ts) = s := by
  have herr : ∃ e, mintWithProofVerification oracle s sender proofs providers ts = .error e := by
    by_cases h0 : proofs.length = 0
    · exact ⟨"At least one proof required", by simp [mintWithProofVerification, h0]⟩
    by_cases hlen : proofs.length = providers.length
    swap
    · exact ⟨"Proofs and providers length mismatch",
        by simp [mintWithProofVerification, h0, hlen]⟩
    have h0' : ¬ providers.length = 0 := hlen ▸ h0
    by_cases hm : sender ∈ s.hasMinted
    · exact ⟨"Already minted", by simp [mintWithProofVerification, h0, h0', hlen, hm]⟩
    have hbad :
        (∃ pr ∈ providers, pr ∉ s.supportedProviders) ∨
        (∃ p ∈ proofs, oracle p = false) := by
      rcases h with h | h | h | h
      · exact absurd hlen h
      · exact absurd h hm
      · exact Or.inl h
      · exact Or.inr h
    obtain ⟨e, he⟩ := verifyAll_err oracle s.supportedProviders proofs providers hlen hbad
    exact ⟨e, by simp [mintWithProofVerification, h0, h0', hlen, hm, he]⟩
  refine ⟨herr, ?_⟩
  obtain ⟨e, he⟩ := herr
  simp [applyTx, he]

/-- Witness for C3: a batch whose single proof the oracle rejects reverts
and leaves the fresh contract state untouched. -/
theorem mintWithProofVerification_atomic_witness :
    (∃ e, mintWithProofVerification (fun _ => false) (initialContractState 7) 2 [dummyProof]
        ["github"] 0 = .error e) ∧
    applyTx (initialContractState 7)
        (mintWithProofVerification (fun _ => false) (initialContractState 7) 2 [dummyProof]
          ["github"] 0) = initialContractState 7 :=
  mintWithProofVerification_atomic (fun _ => false) (initialContractState 7) 2 [dummyProof]
    ["github"] 0 (Or.inr (Or.inr (Or.inr ⟨dummyProof, by simp, rfl⟩)))

/-! ## C4: `mintSocialProofPass` authorization and one-mint-per-address -/

/-- C4: the owner-gated mint fails when the caller is not the contract
owner, when `providers` is empty, when the recipient is the zero address
(via the ERC721 mint guard), or when the recipient has already minted; and
after a successful mint `hasAlreadyMinted(to)` is true and any further
owner call of `mintSocialProofPass` for the same recipient (with a
nonempty provider list) reverts with `Already minted`. -/
theorem mintSocialProofPass_auth (s : ContractState) (sender toAddr : Nat)
    (providers : List String) (pd : List Nat) (ts : Nat) :
    (sender ≠ s.owner →
      ∃ e, mintSocialProofPass s sender toAddr providers pd ts = .error e) ∧
    (providers = [] →
      ∃ e, mintSocialProofPass s sender toAddr providers pd ts = .error e) ∧
    (toAddr = 0 →
      ∃ e, mintSocialProofPass s sender toAddr providers pd ts = .error e) ∧
    (toAddr ∈ s.hasMinted →
      ∃ e, mintSocialProofPass s sender toAddr providers pd ts = .error e) ∧
    (∀ s' tid, mintSocialProofPass s sender toAddr providers pd ts = .ok (s', tid) →
      hasAlreadyMinted s' toAddr = true ∧
      ∀ sender2 providers2 pd2 ts2, sender2 = s'.owner → providers2 ≠ [] →
        mintSocialProofPass s' sender2 toAddr providers2 pd2 ts2 = .error "Already minted") := by
  refine ⟨?_, ?_, ?_, ?_, ?_⟩
  · intro h
    exact ⟨"Ownable: caller is not the owner", by simp [mintSocialProofPass, h]⟩
  · intro h
    subst h
    by_cases hso : sender = s.owner
    · exact ⟨"At least one provider required", by simp [mintSocialProofPass, hso]⟩
    · exact ⟨"Ownable: caller is not the owner", by simp [mintSocialProofPass, hso]⟩
  · intro h0
    subst h0
    by_cases hso : sender = s.owner
    swap
    · exact ⟨"Ownable: caller is not the owner", by simp [mintSocialProofPass, hso]⟩
    by_cases hp : providers.length = 0
    · exact ⟨"At least one provider required", by simp [mintSocialProofPass, hso, hp]⟩
    by_cases hm : (0 : Nat) ∈ s.hasMinted
    · exact ⟨"Already minted", by simp [mintSocialProofPass, hso, hp, hm]⟩
    · exact ⟨"ERC721: mint to the zero address",
        by simp [mintSocialProofPass, safeMint, hso, hp, hm]⟩
  · intro hm
    by_cases hso : sender = s.owner
    swap
    · exact ⟨"Ownable: caller is not the owner", by simp [mintSocialProofPass, hso]⟩
    by_cases hp : providers.length = 0
    · exact ⟨"At least one provider required", by simp [mintSocialProofPass, hso, hp]⟩
    · exact ⟨"Already minted", by simp [mintSocialProofPass, hso, hp, hm]⟩
  · intro s' tid hok
    simp only [mintSocialProofPass, safeMint] at hok
    split at hok
    · exact absurd hok (by simp)
    split at hok
    · exact absurd hok (by simp)
    split at hok
    · exact absurd hok (by simp)
    split at hok
    · exact absurd hok (by simp)
    rename_i s₁ heq
    split at heq
    · exact absurd heq (by simp)
    split at heq
    · exact absurd heq (by simp)
    simp only [Except.ok.injEq] at heq
    subst heq
    simp only [Except.ok.injEq, Prod.mk.injEq] at hok
    obtain ⟨hs, -⟩ := hok
    subst hs
    constructor
    · simp [hasAlreadyMinted]
    · intro sender2 providers2 pd2 ts2 h2o h2p
      have h2len : providers2.length ≠ 0 := by
        simpa using fun hnil => h2p (List.length_eq_zero.mp hnil)
      simp [mintSocialProofPass, h2o, h2len, hasAlreadyMinted]

/-- Witness for C4: each failure branch fires on a concrete input, and
after the concrete successful mint of `mintedDemo` the recipient is marked
minted and a repeat mint reverts with `Already minted`. -/
theorem mintSocialProofPass_auth_witness :
    (∃ e, mintSocialProofPass (initialContractState 7) 5 1 ["github"] [] 0 = .error e) ∧
    (∃ e, mintSocialProofPass (initialContractState 7) 7 1 [] [] 0 = .error e) ∧
    (∃ e, mintSocialProofPass (initialContractState 7) 7 0 ["github"] [] 0 = .error e) ∧
    (∃ e, mintSocialProofPass mintedDemo 7 1 ["gmail"] [] 0 = .error e) ∧
    (hasAlreadyMinted mintedDemo 1 = true ∧
      mintSocialProofPass mintedDemo 7 1 ["gmail"] [] 8 = .error "Already minted") := by
  have hsucc :=
    (mintSocialProofPass_auth (initialContractState 7) 7 1 ["github"] [] 3).2.2.2.2
      mintedDemo 0 rfl
  refine ⟨?_, ?_, ?_, ?_, hsucc.1, hsucc.2 7 ["gmail"] [] 8 rfl (by simp)⟩
  · exact (mintSocialProofPass_auth (initialContractState 7) 5 1 ["github"] [] 0).1 (by decide)
  · exact (mintSocialProofPass_auth (initialContractState 7) 7 1 [] [] 0).2.1 rfl
  · exact (mintSocialProofPass_auth (initialContractState 7) 7 0 ["github"] [] 0).2.2.1 rfl
  · exact (mintSocialProofPass_auth mintedDemo 7 1 ["gmail"] [] 0).2.2.2.1 (by decide)

/-! ## Lemmas about the `/receive-proofs` promotion loop -/

theorem promoteFirstPending_get_ne (provider pk pf : String) (now : Nat) :
    ∀ (l : List (String × Session)) (i : Nat), firstPendingIdx provider l ≠ some i →
      (promoteFirstPending provider pk pf now l)[i]? = l[i]? := by
  intro l
  induction l with
  | nil => intro i _; rfl
  | cons hd rest ih =>
    obtain ⟨sid, s⟩ := hd
    intro i h
    by_cases hm : s.provider = provider ∧ s.status = "pending"
    · cases i with
      | zero => exact absurd (by simp [firstPendingIdx, hm]) h
      | succ j => simp [promoteFirstPending, hm]
    · cases i with
      | zero => simp [promoteFirstPending, hm]
      | succ j =>
        have h' : firstPendingIdx provider rest ≠ some j := by
          intro hj
          exact h (by simp [firstPendingIdx, hm, hj])
        simp [promoteFirstPending, hm, ih j h']

theorem promoteFirstPending_get_eq (provider pk pf : String) (now : Nat) :
    ∀ (l : List (String × Session)) (i : Nat), firstPendingIdx provider l = some i →
      (promoteFirstPending provider pk pf now l)[i]? =
        (l[i]?).map (fun q => (q.1, promoteSession q.2 pk pf now)) := by
  intro l
  induction l with
  | nil => intro i h; simp [firstPendingIdx] at h
  | cons hd rest ih =>
    obtain ⟨sid, s⟩ := hd
    intro i h
    by_cases hm : s.provider = provider ∧ s.status = "pending"
    · have h0 : i = 0 := by
        simp [firstPendingIdx, hm] at h
        exact h.symm
      subst h0
      simp [promoteFirstPending, hm]
    · cases hfp : firstPendingIdx provider rest with
      | none => rw [firstPendingIdx, if_neg hm, hfp] at h; simp at h
      | some j =>
        rw [firstPendingIdx, if_neg hm, hfp] at h
        simp only [Option.map_some', Option.some.injEq] at h
        subst h
        simp [promoteFirstPending, hm, ih j hfp]

theorem promoteFirstPending_id (provider pk pf : String) (now : Nat) :
    ∀ l : List (String × Session),
      (∀ q ∈ l, ¬(q.2.provider = provider ∧ q.2.status = "pending")) →
      promoteFirstPending provider pk pf now l = l := by
  intro l
  induction l with
  | nil => intro _; rfl
  | cons hd rest ih =>
    obtain ⟨sid, s⟩ := hd
    intro h
    have hm : ¬(s.provider = provider ∧ s.status = "pending") := h (sid, s) (by simp)
    simp only [promoteFirstPending, if_neg hm]
    rw [ih fun q hq => h q (List.mem_cons_of_mem _ hq)]

theorem firstPendingIdx_entry (provider : String) :
    ∀ (l : List (String × Session)) (i : Nat), firstPendingIdx provider l = some i →
      ∃ sid s, l[i]? = some (sid, s) ∧ s.provider = provider ∧ s.status = "pending" ∧
        ∀ j sid' s', j < i → l[j]? = some (sid', s') →
          ¬(s'.provider = provider ∧ s'.status = "pending") := by
  intro l
  induction l with
  | nil => intro i h; simp [firstPendingIdx] at h
  | cons hd rest ih =>
    obtain ⟨sid, s⟩ := hd
    intro i h
    by_cases hm : s.provider = provider ∧ s.status = "pending"
    · have h0 : i = 0 := by
        simp [firstPendingIdx, hm] at h
        exact h.symm
      subst h0
      exact ⟨sid, s, by simp, hm.1, hm.2, fun j _ _ hj _ => absurd hj (Nat.not_lt_zero j)⟩
    · cases hfp : firstPendingIdx provider rest with
      | none => rw [firstPendingIdx, if_neg hm, hfp] at h; simp at h
      | some j =>
        rw [firstPendingIdx, if_neg hm, hfp] at h
        simp only [Option.map_some', Option.some.injEq] at h
        subst h
        obtain ⟨sid', s', hget, hp, hs, hmin⟩ := ih j hfp
        refine ⟨sid', s', by simpa using hget, hp, hs, ?_⟩
        intro k sid'' s'' hk hkget
        cases k with
        | zero =>
          simp only [List.getElem?_cons_zero, Option.some.injEq, Prod.mk.injEq] at hkget
          rw [← hkget.2]
          exact hm
        | succ k' =>
          simp only [List.getElem?_cons_succ] at hkget
          exact hmin k' sid'' s'' (Nat.lt_of_succ_lt_succ hk) hkget

/-! ## C1: which session does `/receive-proofs` promote? -/

/-- Two pending github sessions, the second created later. -/
def sessOld : Session :=
  { provider := "github", status := "pending", address := none, createdAt := 1,
    proofKey := none, proof := none, verifiedAt := none }

def sessNew : Session :=
  { provider := "github", status := "pending", address := none, createdAt := 2,
    proofKey := none, proof := none, verifiedAt := none }

def twoPendingStore : BackendState :=
  { sessions := [("github-1", sessOld), ("github-2", sessNew)], proofs := [] }

/-- C1 counterexample: with two pending github sessions (`createdAt` 1 and
2, inserted in that order), a verified callback promotes the session with
`createdAt = 1` and leaves the most recently created pending session
(`createdAt = 2`) untouched — the loop promotes the first match in
iteration order, not the one with the largest `createdAt`. -/
theorem receiveCallback_promotes_oldest_cex :
    (receiveCallback (fun _ => true) twoPendingStore "github" "pf" 50).1 = .ok ∧
    lookupA (receiveCallback (fun _ => true) twoPendingStore "github" "pf" 50).2.sessions
        "github-2" = some sessNew ∧
    sessNew.status = "pending" ∧
    sessNew.createdAt > sessOld.createdAt ∧
    lookupA (receiveCallback (fun _ => true) twoPendingStore "github" "pf" 50).2.sessions
        "github-1" = some (promoteSession sessOld "github-50" "pf" 50) ∧
    (promoteSession sessOld "github-50" "pf" 50).status = "verified" := by
  decide

/-- C1 as amended: for a supported provider and a proof the oracle accepts,
the handler answers 200, stores a `StoredProof` under `provider-now`, and
promotes exactly the first session in map-iteration (insertion) order whose
provider matches and whose status is `pending` (every entry before it is
not a pending match); every session at any other position is bitwise
unchanged, hence keeps its status. -/
theorem receiveCallback_promotes_first_pending (verifyOk : RawProof → Bool)
    (st : BackendState) (provider pf : String) (now : Nat)
    (hsup : providerSupported provider = true) (hv : verifyOk pf = true) :
    (receiveCallback verifyOk st provider pf now).1 = .ok ∧
    lookupA (receiveCallback verifyOk st provider pf now).2.proofs
        (provider ++ "-" ++ toString now) =
      some { provider := provider, proof := pf, timestamp := now, status := "verified" } ∧
    (∀ i, firstPendingIdx provider st.sessions = some i →
      ∃ sid s, st.sessions[i]? = some (sid, s) ∧ s.provider = provider ∧
        s.status = "pending" ∧
        (∀ j sid' s', j < i → st.sessions[j]? = some (sid', s') →
          ¬(s'.provider = provider ∧ s'.status = "pending")) ∧
        (receiveCallback verifyOk st provider pf now).2.sessions[i]? =
          some (sid, promoteSession s (provider ++ "-" ++ toString now) pf now)) ∧
    (∀ i, firstPendingIdx provider st.sessions ≠ some i →
      (receiveCallback verifyOk st provider pf now).2.sessions[i]? = st.sessions[i]?) := by
  have hres : receiveCallback verifyOk st provider pf now =
      (.ok, { sessions := promoteFirstPending provider (provider ++ "-" ++ toString now) pf now
                st.sessions,
              proofs := mapSet st.proofs (provider ++ "-" ++ toString now)
                { provider := provider, proof := pf, timestamp := now,
                  status := "verified" } }) := by
    simp [receiveCallback, hsup, hv]
  refine ⟨by rw [hres], ?_, ?_, ?_⟩
  · rw [hres]
    exact lookupA_mapSet_self _ _ _
  · intro i hi
    obtain ⟨sid, s, hget, hp, hs, hmin⟩ := firstPendingIdx_entry provider st.sessions i hi
    refine ⟨sid, s, hget, hp, hs, hmin, ?_⟩
    rw [hres]
    simpa [hget] using
      promoteFirstPending_get_eq provider (provider ++ "-" ++ toString now) pf now
        st.sessions i hi
  · intro i hi
    rw [hres]
    exact promoteFirstPending_get_ne provider (provider ++ "-" ++ toString now) pf now
      st.sessions i hi

/-- Witness for the amended C1 on the concrete two-pending-session store. -/
theorem receiveCallback_promotes_first_pending_witness :
    (receiveCallback (fun _ => true) twoPendingStore "github" "pfx" 60).1 = .ok ∧
    lookupA (receiveCallback (fun _ => true) twoPendingStore "github" "pfx" 60).2.proofs
        "github-60" =
      some { provider := "github", proof := "pfx", timestamp := 60, status := "verified" } ∧
    (receiveCallback (fun _ => true) twoPendingStore "github" "pfx" 60).2.sessions[1]? =
      twoPendingStore.sessions[1]? := by
  have h := receiveCallback_promotes_first_pending (fun _ => true) twoPendingStore
    "github" "pfx" 60 (by decide) rfl
  exact ⟨h.1, h.2.1, h.2.2.2 1 (by decide)⟩

/-! ## C9: a verified callback with no pending session still succeeds -/

/-- C9: for a supported provider and an oracle-accepted proof, the handler
returns 200 and stores a `StoredProof` even when no pending session for the
provider exists, and in that case the session map is completely
unchanged. -/
theorem receiveCallback_noPending_ok (verifyOk : RawProof → Bool) (st : BackendState)
    (provider pf : String) (now : Nat)
    (hsup : providerSupported provider = true) (hv : verifyOk pf = true)
    (hnone : ∀ q ∈ st.sessions, ¬(q.2.provider = provider ∧ q.2.status = "pending")) :
    (receiveCallback verifyOk st provider pf now).1 = .ok ∧
    (receiveCallback verifyOk st provider pf now).2.sessions = st.sessions ∧
    (receiveCallback verifyOk st provider pf now).2.proofs =
      mapSet st.proofs (provider ++ "-" ++ toString now)
        { provider := provider, proof := pf, timestamp := now, status := "verified" } := by
  have hid := promoteFirstPending_id provider (provider ++ "-" ++ toString now) pf now
    st.sessions hnone
  refine ⟨?_, ?_, ?_⟩ <;> simp [receiveCallback, hsup, hv, hid]

/-- Witness for C9: a callback on an empty session store (and on a store
whose only github session is already verified). -/
theorem receiveCallback_noPending_ok_witness :
    (receiveCallback (fun _ => true) emptyBackendState "github" "pf" 9).1 = .ok ∧
    (receiveCallback (fun _ => true) emptyBackendState "github" "pf" 9).2.sessions = [] ∧
    (receiveCallback (fun _ => true) emptyBackendState "github" "pf" 9).2.proofs =
      [("github-9", { provider := "github", proof := "pf", timestamp := 9,
                      status := "verified" })] := by
  have h := receiveCallback_noPending_ok (fun _ => true) emptyBackendState "github" "pf" 9
    (by decide) rfl (by intro q hq; simp [emptyBackendState] at hq)
  exact ⟨h.1, h.2.1, h.2.2⟩

/-! ## C10: what the promotion step does and does not touch -/

def pendingSess : Session :=
  { provider := "github", status := "pending", address := some "0xholder", createdAt := 3,
    proofKey := none, proof := none, verifiedAt := none }

def oldStoredProof : StoredProof :=
  { provider := "github", proof := "oldproof", timestamp := 2, status := "verified" }

/-- A store holding one pending github session and a proof already stored
under the key `github-5`. -/
def collisionStore : BackendState :=
  { sessions := [("github-3", pendingSess)], proofs := [("github-5", oldStoredProof)] }

/-- C10 counterexample: a callback at `Date.now() = 5` promotes the pending
session, but its proof key `github-5` collides with an existing entry of
the proof store, so a previously stored proof is replaced rather than left
unchanged. -/
theorem receiveCallback_overwrites_proof_cex :
    lookupA (receiveCallback (fun _ => true) collisionStore "github" "newproof" 5).2.sessions
        "github-3" = some (promoteSession pendingSess "github-5" "newproof" 5) ∧
    lookupA (receiveCallback (fun _ => true) collisionStore "github" "newproof" 5).2.proofs
        "github-5" =
      some { provider := "github", proof := "newproof", timestamp := 5,
             status := "verified" } ∧
    ({ provider := "github", proof := "newproof", timestamp := 5,
       status := "verified" } : StoredProof) ≠ oldStoredProof := by
  decide

/-- C10 as amended: the promoted session keeps its `provider`, `address`
and `createdAt` and only its `status`, `proofKey`, `proof` and `verifiedAt`
are (re)set; every session at a position other than the promoted one is
unchanged; and every previously stored proof under a key other than the new
proof key `provider-now` is unchanged (a stored proof under that exact key
is overwritten, as the counterexample shows). -/
theorem receiveCallback_frame (verifyOk : RawProof → Bool) (st : BackendState)
    (provider pf : String) (now : Nat)
    (hsup : providerSupported provider = true) (hv : verifyOk pf = true) :
    (∀ s : Session,
      (promoteSession s (provider ++ "-" ++ toString now) pf now).provider = s.provider ∧
      (promoteSession s (provider ++ "-" ++ toString now) pf now).address = s.address ∧
      (promoteSession s (provider ++ "-" ++ toString now) pf now).createdAt = s.createdAt ∧
      (promoteSession s (provider ++ "-" ++ toString now) pf now).status = "verified" ∧
      (promoteSession s (provider ++ "-" ++ toString now) pf now).proofKey =
        some (provider ++ "-" ++ toString now) ∧
      (promoteSession s (provider ++ "-" ++ toString now) pf now).proof = some pf ∧
      (promoteSession s (provider ++ "-" ++ toString now) pf now).verifiedAt = some now) ∧
    (∀ i, firstPendingIdx provider st.sessions ≠ some i →
      (receiveCallback verifyOk st provider pf now).2.sessions[i]? = st.sessions[i]?) ∧
    (∀ k, k ≠ provider ++ "-" ++ toString now →
      lookupA (receiveCallback verifyOk st provider pf now).2.proofs k =
        lookupA st.proofs k) := by
  refine ⟨fun s => ⟨rfl, rfl, rfl, rfl, rfl, rfl, rfl⟩, ?_, ?_⟩
  · intro i hi
    simpa [receiveCallback, hsup, hv] using
      promoteFirstPending_get_ne provider (provider ++ "-" ++ toString now) pf now
        st.sessions i hi
  · intro k hk
    simp only [receiveCallback, hsup, hv]
    simpa using lookupA_mapSet_ne st.proofs (provider ++ "-" ++ toString now) k _ hk

/-- Witness for the amended C10 on the collision store: the non-promoted
positions and the proof stored under a different key survive. -/
theorem receiveCallback_frame_witness :
    (promoteSession pendingSess "github-8" "pf2" 8).provider = pendingSess.provider ∧
    (promoteSession pendingSess "github-8" "pf2" 8).createdAt = pendingSess.createdAt ∧
    (receiveCallback (fun _ => true) collisionStore "github" "pf2" 8).2.sessions[1]? =
      collisionStore.sessions[1]? ∧
    lookupA (receiveCallback (fun _ => true) collisionStore "github" "pf2" 8).2.proofs
        "github-5" = lookupA collisionStore.proofs "github-5" := by
  have h := receiveCallback_frame (fun _ => true) collisionStore "github" "pf2" 8
    (by decide) rfl
  exact ⟨(h.1 pendingSess).1, (h.1 pendingSess).2.2.1, h.2.1 1 (by decide),
    h.2.2 "github-5" (by decide)⟩

/-! ## Lemmas about the `/verification-status` scan -/

theorem latestLoop_le (provider : String) :
    ∀ (l : List (String × Session)) (acc : Option (String × Session))
      (r : String × Session), latestLoop provider acc l = some r →
      (∀ b, acc = some b → b.2.createdAt ≤ r.2.createdAt) ∧
      ∀ q ∈ l, q.2.provider = provider → q.2.createdAt ≤ r.2.createdAt := by
  intro l
  induction l with
  | nil =>
    intro acc r hres
    refine ⟨?_, by simp⟩
    intro b hb
    rw [hb] at hres
    simp only [latestLoop, Option.some.injEq] at hres
    rw [hres]
  | cons hd rest ih =>
    obtain ⟨sid, s⟩ := hd
    intro acc r hres
    by_cases hp : s.provider = provider
    · cases acc with
      | none =>
        rw [latestLoop, if_pos hp] at hres
        obtain ⟨hacc, hrest⟩ := ih (some (sid, s)) r hres
        refine ⟨fun b hb => by simp at hb, ?_⟩
        intro q hq hqp
        rcases List.mem_cons.mp hq with h | h
        · rw [h]
          exact hacc (sid, s) rfl
        · exact hrest q h hqp
      | some best =>
        rw [latestLoop, if_pos hp] at hres
        by_cases hgt : s.createdAt > best.2.createdAt
        · rw [if_pos hgt] at hres
          obtain ⟨hacc, hrest⟩ := ih (some (sid, s)) r hres
          have hs : s.createdAt ≤ r.2.createdAt := hacc (sid, s) rfl
          refine ⟨?_, ?_⟩
          · intro b hb
            cases hb
            exact le_trans (le_of_lt hgt) hs
          · intro q hq hqp
            rcases List.mem_cons.mp hq with h | h
            · rw [h]; exact hs
            · exact hrest q h hqp
        · rw [if_neg hgt] at hres
          obtain ⟨hacc, hrest⟩ := ih (some best) r hres
          have hb : best.2.createdAt ≤ r.2.createdAt := hacc best rfl
          refine ⟨?_, ?_⟩
          · intro b hbe
            cases hbe
            exact hb
          · intro q hq hqp
            rcases List.mem_cons.mp hq with h | h
            · rw [h]
              exact le_trans (Nat.le_of_not_lt hgt) hb
            · exact hrest q h hqp
    · simp only [latestLoop, if_neg hp] at hres
      obtain ⟨hacc, hrest⟩ := ih acc r hres
      refine ⟨hacc, ?_⟩
      intro q hq hqp
      rcases List.mem_cons.mp hq with h | h
      · rw [h] at hqp
        exact absurd hqp hp
      · exact hrest q h hqp

theorem latestLoop_mem (provider : String) :
    ∀ (l : List (String × Session)) (acc : Option (String × Session))
      (r : String × Session), latestLoop provider acc l = some r →
      (r ∈ l ∧ r.2.provider = provider) ∨ acc = some r := by
  intro l
  induction l with
  | nil =>
    intro acc r hres
    right
    simpa [latestLoop] using hres
  | cons hd rest ih =>
    obtain ⟨sid, s⟩ := hd
    intro acc r hres
    by_cases hp : s.provider = provider
    · cases acc with
      | none =>
        rw [latestLoop, if_pos hp] at hres
        rcases ih (some (sid, s)) r hres with ⟨hmem, hpr⟩ | hacc
        · exact Or.inl ⟨List.mem_cons_of_mem _ hmem, hpr⟩
        · refine Or.inl ⟨?_, ?_⟩
          · simp only [Option.some.injEq] at hacc
            rw [← hacc]
            simp
          · simp only [Option.some.injEq] at hacc
            rw [← hacc]
            exact hp
      | some best =>
        rw [latestLoop, if_pos hp] at hres
        by_cases hgt : s.createdAt > best.2.createdAt
        · rw [if_pos hgt] at hres
          rcases ih (some (sid, s)) r hres with ⟨hmem, hpr⟩ | hacc
          · exact Or.inl ⟨List.mem_cons_of_mem _ hmem, hpr⟩
          · refine Or.inl ⟨?_, ?_⟩
            · simp only [Option.some.injEq] at hacc
              rw [← hacc]
              simp
            · simp only [Option.some.injEq] at hacc
              rw [← hacc]
              exact hp
        · rw [if_neg hgt] at hres
          rcases ih (some best) r hres with ⟨hmem, hpr⟩ | hacc
          · exact Or.inl ⟨List.mem_cons_of_mem _ hmem, hpr⟩
          · exact Or.inr hacc
    · simp only [latestLoop, if_neg hp] at hres
      rcases ih acc r hres with ⟨hmem, hpr⟩ | hacc
      · exact Or.inl ⟨List.mem_cons_of_mem _ hmem, hpr⟩
      · exact Or.inr hacc

theorem latestLoop_skip (provider : String) :
    ∀ (l : List (String × Session)) (acc : Option (String × Session)),
      (∀ q ∈ l, q.2.provider ≠ provider) → latestLoop provider acc l = acc := by
  intro l
  induction l with
  | nil => intro acc _; rfl
  | cons hd rest ih =>
    obtain ⟨sid, s⟩ := hd
    intro acc h
    have hp : s.provider ≠ provider := h (sid, s) (by simp)
    simp only [latestLoop, if_neg hp]
    exact ih acc fun q hq => h q (List.mem_cons_of_mem _ hq)

theorem latestLoop_total (provider : String) :
    ∀ (l : List (String × Session)) (b : String × Session),
      ∃ r, latestLoop provider (some b) l = some r := by
  intro l
  induction l with
  | nil => intro b; exact ⟨b, rfl⟩
  | cons hd rest ih =>
    obtain ⟨sid, s⟩ := hd
    intro b
    by_cases hp : s.provider = provider
    · by_cases hgt : s.createdAt > b.2.createdAt
      · obtain ⟨r, hr⟩ := ih (sid, s)
        exact ⟨r, by rw [latestLoop, if_pos hp, if_pos hgt]; exact hr⟩
      · obtain ⟨r, hr⟩ := ih b
        exact ⟨r, by rw [latestLoop, if_pos hp, if_neg hgt]; exact hr⟩
    · obtain ⟨r, hr⟩ := ih b
      exact ⟨r, by simp only [latestLoop, if_neg hp]; exact hr⟩

theorem latestLoop_isSome (provider : String) :
    ∀ (l : List (String × Session)) (acc : Option (String × Session)),
      (∃ q ∈ l, q.2.provider = provider) → ∃ r, latestLoop provider acc l = some r := by
  intro l
  induction l with
  | nil =>
    intro acc h
    obtain ⟨q, hq, -⟩ := h
    simp at hq
  | cons hd rest ih =>
    obtain ⟨sid, s⟩ := hd
    intro acc h
    by_cases hp : s.provider = provider
    · cases acc with
      | none =>
        obtain ⟨r, hr⟩ := latestLoop_total provider rest (sid, s)
        exact ⟨r, by rw [latestLoop, if_pos hp]; exact hr⟩
      | some best =>
        by_cases hgt : s.createdAt > best.2.createdAt
        · obtain ⟨r, hr⟩ := latestLoop_total provider rest (sid, s)
          exact ⟨r, by rw [latestLoop, if_pos hp, if_pos hgt]; exact hr⟩
        · obtain ⟨r, hr⟩ := latestLoop_total provider rest best
          exact ⟨r, by rw [latestLoop, if_pos hp, if_neg hgt]; exact hr⟩
    · obtain ⟨q, hq, hqp⟩ := h
      rcases List.mem_cons.mp hq with hh | hh
      · rw [hh] at hqp
        exact absurd hqp hp
      · obtain ⟨r, hr⟩ := ih acc ⟨q, hh, hqp⟩
        exact ⟨r, by simp only [latestLoop, if_neg hp]; exact hr⟩

/-! ## C6: `/verification-status` returns the latest session -/

/-- C6: `queryStatus` answers `not_found` exactly when no session for the
provider exists; otherwise the scan yields a session of that provider that
is in the store, has maximal `createdAt` among the provider's sessions, and
whose status, id and proof constitute the response. -/
theorem queryStatus_latest (st : BackendState) (provider : String) :
    ((∀ q ∈ st.sessions, q.2.provider ≠ provider) →
      queryStatus st provider = notFoundResponse) ∧
    ((∃ q ∈ st.sessions, q.2.provider = provider) →
      ∃ sid s, latestLoop provider none st.sessions = some (sid, s) ∧
        (sid, s) ∈ st.sessions ∧ s.provider = provider ∧
        (∀ q ∈ st.sessions, q.2.provider = provider → q.2.createdAt ≤ s.createdAt) ∧
        queryStatus st provider =
          { status := s.status, sessionId := some sid, proof := s.proof,
            provider := some s.provider }) := by
  constructor
  · intro h
    rw [queryStatus, latestLoop_skip provider st.sessions none h]
  · intro h
    obtain ⟨r, hr⟩ := latestLoop_isSome provider st.sessions none h
    obtain ⟨sid, s⟩ := r
    have hmem : (sid, s) ∈ st.sessions ∧ s.provider = provider := by
      rcases latestLoop_mem provider st.sessions none (sid, s) hr with hh | hh
      · exact hh
      · simp at hh
    refine ⟨sid, s, hr, hmem.1, hmem.2, ?_, ?_⟩
    · exact (latestLoop_le provider st.sessions none (sid, s) hr).2
    · rw [queryStatus, hr]

/-- A concrete store: two github sessions (latest `createdAt = 9`) and one
gmail session. -/
def demoStore : BackendState :=
  { sessions :=
      [("github-4",
        { provider := "github", status := "verified", address := none, createdAt := 4,
          proofKey := none, proof := some "p4", verifiedAt := some 5 }),
       ("github-9",
        { provider := "github", status := "pending", address := some "0xw", createdAt := 9,
          proofKey := none, proof := none, verifiedAt := none }),
       ("gmail-2",
        { provider := "gmail", status := "pending", address := none, createdAt := 2,
          proofKey := none, proof := none, verifiedAt := none })],
    proofs := [] }

/-- Witness for C6: `twitter` has no session (`not_found`), and the
`github` query is answered by the `createdAt = 9` session. -/
theorem queryStatus_latest_witness :
    queryStatus demoStore "twitter" = notFoundResponse ∧
    (∃ sid s, latestLoop "github" none demoStore.sessions = some (sid, s) ∧
      (sid, s) ∈ demoStore.sessions ∧ s.provider = "github" ∧
      (∀ q ∈ demoStore.sessions, q.2.provider = "github" →
        q.2.createdAt ≤ s.createdAt) ∧
      queryStatus demoStore "github" =
        { status := s.status, sessionId := some sid, proof := s.proof,
          provider := some s.provider }) := by
  constructor
  · exact (queryStatus_latest demoStore "twitter").1 (by decide)
  · exact (queryStatus_latest demoStore "github").2
      ⟨("github-9",
        { provider := "github", status := "pending", address := some "0xw", createdAt := 9,
          proofKey := none, proof := none, verifiedAt := none }), by simp [demoStore], rfl⟩

end ZkTLS
